import Mathlib

/-!
Verification of the echo.kern rooted-tree enumeration core.

Shallow embedding of the DTESN kernel-specification compiler
(`dtesn_compiler.py`, `echo_kernel_spec_backup.py`) and of the
spec-described enumerator / B-series / evolution-engine components,
with theorems settling the frozen claims about them.
-/

namespace EchoKern

/-- The bundled fallback enumeration table
(`dtesn_compiler.py` line 42, `echo_kernel_spec_backup.py` line 33). -/
def OEIS_A000081 : List Nat :=
  [0, 1, 1, 2, 4, 9, 20, 48, 115, 286, 719, 1842, 4766, 12486, 32973]

/-- Sum over the divisors d of k of d * a(d), where a is given as a list
indexed from 0.  This is the inner sum of the standard A000081 recurrence. -/
def divisorWeight (a : List Nat) (k : Nat) : Nat :=
  (List.range (k + 1)).foldl
    (fun s d => if d ≠ 0 ∧ k % d = 0 then s + d * a.getD d 0 else s) 0

/-- Given the list `[a(0), ..., a(n)]`, compute `a(n+1)` by the canonical
recurrence `a(n+1) = (1/n) * Σ_{k=1..n} divisorWeight(k) * a(n-k+1)`. -/
def nextTreeCount (a : List Nat) : Nat :=
  let n := a.length - 1
  ((List.range (n + 1)).foldl
    (fun s k => if k = 0 then s else s + divisorWeight a k * a.getD (n - k + 1) 0) 0) / n

/-- The canonical A000081 values `[a(0), ..., a(n)]`, computed from the
recurrence (independently of the bundled table). -/
def canonicalA000081 : Nat → List Nat
  | 0 => [0]
  | 1 => [0, 1]
  | n + 2 =>
    let p := canonicalA000081 (n + 1)
    p ++ [nextTreeCount p]

/-- A membrane hierarchy level entry (`MembraneLevel` dataclass). -/
structure MembraneLevel where
  level : Nat
  count : Nat
  neurons : Nat
  type : String
deriving DecidableEq, Repr

/-- One validation violation emitted by the hierarchy validator; each
constructor corresponds to one of the formatted error strings appended by
`OEIS_A000081_Validator._validate_original`. -/
inductive Violation where
  | maxDepthExceeded (max_depth : Nat)
  | missingLevels (levels : List Nat)
  | extraLevels (levels : List Nat)
  | countMismatch (level count expected : Nat)
deriving DecidableEq, Repr

/-- The expected per-level membrane count used by the fallback validator:
1 at level 0 (root override), otherwise the table value. -/
def expectedCount (level : Nat) : Nat :=
  if level = 0 then 1 else OEIS_A000081.getD level 0

/-- The set of distinct levels present in a hierarchy
(Python `levels = {level.level for level in hierarchy}`). -/
def levelsOf (hierarchy : List MembraneLevel) : List Nat :=
  (hierarchy.map (·.level)).dedup

/-- Expected levels `0..max_depth` that do not appear in the hierarchy
(`missing_levels = expected_levels - levels`). -/
def missingLevelsOf (hierarchy : List MembraneLevel) (max_depth : Nat) : List Nat :=
  (List.range (max_depth + 1)).filter (fun d => d ∉ levelsOf hierarchy)

/-- Levels present in the hierarchy beyond `max_depth`
(`extra_levels = levels - expected_levels`). -/
def extraLevelsOf (hierarchy : List MembraneLevel) (max_depth : Nat) : List Nat :=
  (levelsOf hierarchy).filter (fun l => max_depth < l)

/-- The per-entry count-mismatch errors: for each hierarchy entry whose
level lies inside the table, its count must equal the expected count. -/
def countErrorsOf (hierarchy : List MembraneLevel) : List Violation :=
  hierarchy.filterMap (fun lv =>
    if lv.level < OEIS_A000081.length ∧ lv.count ≠ expectedCount lv.level then
      some (Violation.countMismatch lv.level lv.count (expectedCount lv.level))
    else none)

/-- The full validation error list: missing levels, then extra levels,
then per-entry count mismatches, in the order the source appends them. -/
def errorsOf (hierarchy : List MembraneLevel) (max_depth : Nat) : List Violation :=
  (if (missingLevelsOf hierarchy max_depth).isEmpty then []
   else [Violation.missingLevels (missingLevelsOf hierarchy max_depth)]) ++
  (if (extraLevelsOf hierarchy max_depth).isEmpty then []
   else [Violation.extraLevels (extraLevelsOf hierarchy max_depth)]) ++
  countErrorsOf hierarchy

/-- Embedding of `OEIS_A000081_Validator._validate_original` (and of the
identical `validate_membrane_hierarchy` of `echo_kernel_spec_backup.py`):
a `max_depth` beyond the table is rejected immediately; otherwise the
result is `(len(errors) == 0, errors)`. -/
def validate_original (hierarchy : List MembraneLevel) (max_depth : Nat) :
    Bool × List Violation :=
  if OEIS_A000081.length ≤ max_depth then
    (false, [Violation.maxDepthExceeded max_depth])
  else
    ((errorsOf hierarchy max_depth).isEmpty, errorsOf hierarchy max_depth)

/-- Total number of membranes recorded across all hierarchy entries at a
given depth (what the spec calls "membranes counted across all entries at
that depth"). -/
def countAtDepth (hierarchy : List MembraneLevel) (d : Nat) : Nat :=
  ((hierarchy.filter (fun lv => lv.level = d)).map (·.count)).sum

/-- Python list indexing `l[i]`: non-negative indices are direct, negative
indices count from the end, and anything outside `[-len, len)` raises
`IndexError`. -/
def pyListGet (l : List Nat) (i : Int) : Except String Nat :=
  if 0 ≤ i then
    if i < (l.length : Int) then .ok (l.getD i.toNat 0) else .error "IndexError"
  else if 0 ≤ (l.length : Int) + i then .ok (l.getD ((l.length : Int) + i).toNat 0)
  else .error "IndexError"

/-- Embedding of `OEIS_A000081_Validator.get_expected_count` (fallback branch, the one
active with the bundled table): level 0 maps to 1; a level strictly below
the table length is read from the table with Python indexing semantics;
beyond the table it raises `ValueError`. -/
def get_expected_count (level : Int) : Except String Nat :=
  if level = 0 then .ok 1
  else if level < (OEIS_A000081.length : Int) then pyListGet OEIS_A000081 level
  else .error "ValueError: Level beyond available data"

/-- The `TimingConstraints` dataclass (defaults as in the source). -/
structure TimingConstraints where
  membrane_evolution_max_us : Nat := 10
  bseries_computation_max_us : Nat := 100
  esn_update_max_ms : Nat := 1
  context_switch_max_us : Nat := 5
deriving DecidableEq, Repr

/-- The part of the `DTESNConfig` dataclass consumed by validation and
compilation control flow. -/
structure DTESNConfig where
  name : String
  version : String
  max_depth : Nat
  membrane_hierarchy : List MembraneLevel
  timing_constraints : TimingConstraints
deriving DecidableEq, Repr

/-- One classified B-Series tree as consumed by
`BSeriesValidator.validate_bseries_config`: its id, the coefficient value
`tree.coefficient.coefficient_value`, and the differential expression
`tree.elementary_diff.expression`.  Coefficients are rationals standing for
the Python floats. -/
structure BSeriesTree where
  tree_id : Nat
  coefficient_value : Rat
  expression : String
deriving DecidableEq, Repr

/-- The interface of the external B-Series classifier as used by
`validate_bseries_config`: trees by order and the per-order computational
cost summary. -/
structure BSeriesClassifier where
  trees_by_order : Nat → List BSeriesTree
  cost_summary : List (Nat × Rat)

/-- One validation message emitted by `validate_bseries_config`; each
constructor corresponds to one of the formatted strings in the source. -/
inductive BSeriesMessage where
  | notAvailable
  | noTreesForOrder (order : Nat)
  | invalidCoefficient (tree_id : Nat)
  | emptyExpression (tree_id : Nat)
  | costExceedsConstraint (order : Nat)
deriving DecidableEq, Repr

/-- Embedding of `BSeriesValidator.validate_bseries_config`: with no classifier
available it returns `(True, [skip message])`; otherwise it checks, for
each order `1..max_depth`, that trees exist, have positive coefficients
and non-empty expressions, and that estimated cost (`total_cost * 10` µs)
stays within the `bseries_computation_max_us` constraint. -/
def validate_bseries_config (cls : Option BSeriesClassifier) (config : DTESNConfig) :
    Bool × List BSeriesMessage :=
  match cls with
  | none => (true, [BSeriesMessage.notAvailable])
  | some c =>
    let max_order := config.max_depth
    let e1 := (List.range' 1 max_order).flatMap (fun order =>
      let trees := c.trees_by_order order
      if trees.length = 0 then [BSeriesMessage.noTreesForOrder order]
      else trees.flatMap (fun t =>
        (if t.coefficient_value ≤ 0 then [BSeriesMessage.invalidCoefficient t.tree_id] else []) ++
        (if t.expression = "" then [BSeriesMessage.emptyExpression t.tree_id] else [])))
    let e2 := c.cost_summary.filterMap (fun oc =>
      if oc.1 ≤ max_order ∧ (config.timing_constraints.bseries_computation_max_us : Rat) < oc.2 * 10 then
        some (BSeriesMessage.costExceedsConstraint oc.1)
      else none)
    let errors := e1 ++ e2
    (errors.isEmpty, errors)

/-- Output formats accepted by the compiler. -/
inductive OutputFormat where
  | c_header
  | kernel_config
  | documentation
deriving DecidableEq, Repr

/-- Control flow of `DTESNCompiler.compile_file`.  Parsing and the final
output write are interactions with the file system; their outcomes enter as
`Except` values (an `error` standing for a raised exception, which the
enclosing `try/except` turns into a printed message and `False`).  The
function returns `True` exactly when parsing, OEIS A000081 hierarchy
validation, B-Series validation and the output write all succeed. -/
def compile_file (parseRes : Except String DTESNConfig)
    (cls : Option BSeriesClassifier) (writeRes : Except String Unit) : Bool :=
  match parseRes with
  | .error _ => false
  | .ok config =>
    let v := validate_original config.membrane_hierarchy config.max_depth
    if v.1 = false then false
    else
      let b := validate_bseries_config cls config
      if b.1 = false then false
      else
        match writeRes with
        | .error _ => false
        | .ok _ => true

/-- Modelled from the spec: the exact-value table of the external
`oeis_a000081_enumerator` module (absent from the sources; only its
callers are present).  Exact values are tabulated for the known range
n ≤ 30 and are computed here from the canonical recurrence. -/
def KNOWN_A000081_VALUES : List Nat := canonicalA000081 30

/-- Round the rational `num / den` to the nearest integer (ties upward). -/
def roundNearest (num den : Nat) : Nat := (2 * num + den) / (2 * den)

/-- Modelled from the spec: the asymptotic approximation
`a(n) ≈ D * α^n * n^(-3/2)` with `D ≈ 0.43992`, `α ≈ 2.95576`, rounded to
the nearest integer.  `n^(3/2)` is evaluated in fixed point as
`Nat.sqrt (n^3 * 10^12) / 10^6`. -/
def asymptoticTerm (n : Nat) : Nat :=
  roundNearest (43992 * 295576 ^ n * 1000000)
    (100000 ^ (n + 1) * Nat.sqrt (n ^ 3 * 10 ^ 12))

/-- Modelled from the spec: `term(n)` of the external enumerator — table
lookup within the known exact range, the asymptotic value beyond it. -/
def term (n : Nat) : Nat :=
  if n < KNOWN_A000081_VALUES.length then KNOWN_A000081_VALUES.getD n 0
  else asymptoticTerm n

/-- Modelled from the spec: `max_nodes_for_budget(max_count)` of the
external enumerator — the largest n with `term(n) ≤ max_count`, found by a
linear scan.  The scan range `max_count + 37` provably covers every
candidate, since `term n ≥ 439920 * n` once n exceeds the known range. -/
def max_nodes_for_budget (max_count : Nat) : Nat :=
  (List.range (max_count + 37)).foldl
    (fun acc n => if term n ≤ max_count then n else acc) 0

/-- One canonical tree shape of the catalog (`TreeShape`); only the
attributes the counting claims touch are carried. -/
structure TreeShape where
  tree_id : Nat
  order : Nat
  symmetry_factor : Nat
deriving DecidableEq, Repr

/-- Build failure of the shape catalog. -/
inductive BuildError where
  | ClassificationError (order : Nat)
deriving DecidableEq, Repr

/-- Modelled from the spec: the internal consistency check of
`TreeShapeCatalog.build` (the external `bseries_tree_classifier` module is
absent from the sources).  For each requested order the generator's shapes
are recorded, and a per-order count differing from `term(k)` fails the
whole build with `ClassificationError`. -/
def buildOrders (g : Nat → List TreeShape) :
    List Nat → Except BuildError (List (Nat × List TreeShape))
  | [] => .ok []
  | k :: ks =>
    if (g k).length = term k then
      match buildOrders g ks with
      | .ok rest => .ok ((k, g k) :: rest)
      | .error e => .error e
    else .error (.ClassificationError k)

/-- Modelled from the spec: `TreeShapeCatalog.build(max_order)` — enumerate
orders 1..max_order with the per-order count check. -/
def buildCatalog (g : Nat → List TreeShape) (max_order : Nat) :
    Except BuildError (List (Nat × List TreeShape)) :=
  buildOrders g (List.range' 1 max_order)

/-- Lookup `shapes_of_order(k)` on a built catalog. -/
def shapes_of_order (cat : List (Nat × List TreeShape)) (k : Nat) : List TreeShape :=
  match cat.find? (fun p => p.1 = k) with
  | some p => p.2
  | none => []

/-! The spec-modelled synchronous evolution engine.

The `psystem_evolution_engine` / `psystem_membranes` modules are absent
from the sources (only the validation driver
`evolution_engine_validation.py` is present), so the synchronous strategy
is modelled from §4.4 of the design: per cycle, every membrane's
applicable rules are selected against a snapshot of its multiset taken at
cycle start (ordered by descending priority, then declaration order, each
rule firing at most once), all applications are committed at end of cycle,
and the system halts when no rule fired. -/

/-- A multiset of symbolic objects, one list entry per occurrence. -/
abbrev ObjMultiset := List String

/-- An evolution rule: left-hand pattern, produced objects, priority. -/
structure ERule where
  lhs : ObjMultiset
  rhs : ObjMultiset
  priority : Nat
deriving DecidableEq, Repr

/-- A membrane: identifier, object multiset, local rules. -/
structure PMembrane where
  mid : Nat
  objects : ObjMultiset
  rules : List ERule
deriving DecidableEq, Repr

/-- A P-system: the membranes plus the halting flag. -/
structure PSystem where
  membranes : List PMembrane
  is_halted : Bool
deriving DecidableEq, Repr

/-- Per-cycle metrics (`EvolutionMetrics.rules_applied`). -/
structure EvolutionMetrics where
  rules_applied : Nat
deriving DecidableEq, Repr

/-- Insert a rule after all rules of greater-or-equal priority. -/
def insertByPriority (r : ERule) : List ERule → List ERule
  | [] => [r]
  | x :: xs => if x.priority < r.priority then r :: x :: xs else x :: insertByPriority r xs

/-- Stable insertion sort by descending priority (ties keep declaration
order), the selection order of §4.4. -/
def sortByPriority : List ERule → List ERule
  | [] => []
  | r :: rs => insertByPriority r (sortByPriority rs)

/-- A rule is applicable when the membrane's multiset contains its
left-hand pattern with sufficient multiplicity. -/
def applicable (objects lhs : ObjMultiset) : Bool :=
  lhs.all (fun o => lhs.count o ≤ objects.count o)

/-- Select-and-apply pass over the priority-ordered rules against the
remaining snapshot; returns the remaining objects, the produced objects
(invisible until commit), and the number of rules fired. -/
def selectApply (snapshot : ObjMultiset) (rules : List ERule) :
    ObjMultiset × ObjMultiset × Nat :=
  rules.foldl
    (fun acc r =>
      if applicable acc.1 r.lhs then (acc.1.diff r.lhs, acc.2.1 ++ r.rhs, acc.2.2 + 1)
      else acc)
    (snapshot, [], 0)

/-- One synchronous cycle of a single membrane: snapshot, select, apply,
commit the products. -/
def evolveMembrane (m : PMembrane) : PMembrane × Nat :=
  let r := selectApply m.objects (sortByPriority m.rules)
  ({ m with objects := r.1 ++ r.2.1 }, r.2.2)

/-- Modelled from the spec: `evolve_system` under the synchronous
strategy — one cycle over all membranes with atomic end-of-cycle commit;
a rule with an empty left-hand pattern fails the whole call with
`InvalidRule`; the system is marked halted when no rule fired. -/
def evolve_system (sys : PSystem) : Except String (EvolutionMetrics × PSystem) :=
  if sys.membranes.any (fun m => m.rules.any (fun r => r.lhs.isEmpty)) then
    .error "InvalidRule"
  else
    let results := sys.membranes.map evolveMembrane
    let total := (results.map (·.2)).sum
    .ok ({ rules_applied := total },
         { membranes := results.map (·.1), is_halted := total = 0 })

/-- A hierarchy splitting depth 2 into two entries of count 1 each
(total 2 membranes at depth 2, where the sequence expects 1). -/
def splitLevelHierarchy : List MembraneLevel :=
  [⟨0, 1, 100, "root"⟩, ⟨1, 1, 50, "trunk"⟩, ⟨2, 1, 20, "leaf"⟩, ⟨2, 1, 20, "leaf"⟩]

/-- A well-formed shape generator: order k yields exactly `term k` shapes. -/
def demoGenerator (k : Nat) : List TreeShape :=
  (List.range (term k)).map (fun i => ⟨i, k, 1⟩)

/-- The catalog `buildCatalog demoGenerator 3` produces. -/
def demoCatalog : List (Nat × List TreeShape) :=
  [(1, [⟨0, 1, 1⟩]), (2, [⟨0, 2, 1⟩]), (3, [⟨0, 3, 1⟩, ⟨1, 3, 1⟩])]

/-- A small concrete P-system in the shape of
`create_dtesn_psystem_example` usage. -/
def demoSystem : PSystem :=
  { membranes :=
      [ { mid := 0, objects := ["a", "a", "b"],
          rules := [ { lhs := ["a"], rhs := ["b", "c"], priority := 1 },
                     { lhs := ["b"], rhs := ["a"], priority := 2 } ] },
        { mid := 1, objects := ["x"],
          rules := [ { lhs := ["x", "x"], rhs := ["y"], priority := 0 } ] } ],
    is_halted := false }

/-- The system state after one synchronous cycle on `demoSystem`. -/
def demoSystemEvolved : PSystem :=
  { membranes :=
      [ { mid := 0, objects := ["a", "a", "b", "c"],
          rules := [ { lhs := ["a"], rhs := ["b", "c"], priority := 1 },
                     { lhs := ["b"], rhs := ["a"], priority := 2 } ] },
        { mid := 1, objects := ["x"],
          rules := [ { lhs := ["x", "x"], rhs := ["y"], priority := 0 } ] } ],
    is_halted := false }

/-! Theorems settling the claims. -/

/-- The bundled table coincides with the recurrence-computed values. -/
lemma table_eq_canonical : OEIS_A000081 = canonicalA000081 14 := by decide

/-- The spec-modelled `term` agrees with the bundled table on 0..14. -/
lemma term_agrees_on_table : ∀ n < 15, term n = OEIS_A000081.getD n 0 := by decide

/-- C1: the bundled fallback table holds exactly the canonical OEIS A000081
values 0, 1, 1, 2, 4, 9, 20, 48, 115, 286, 719, 1842, 4766, 12486, 32973 —
it coincides with the values computed from the canonical recurrence, with
a(0) = 0 and a(1) = 1 — and the spec-modelled `term` agrees with the table
on the whole exact range 0 ≤ n ≤ 14. -/
theorem table_matches_canonical_A000081 :
    OEIS_A000081 = [0, 1, 1, 2, 4, 9, 20, 48, 115, 286, 719, 1842, 4766, 12486, 32973] ∧
    OEIS_A000081 = canonicalA000081 14 ∧
    OEIS_A000081.getD 0 0 = 0 ∧ OEIS_A000081.getD 1 0 = 1 ∧
    (∀ n < 15, term n = OEIS_A000081.getD n 0) :=
  ⟨rfl, table_eq_canonical, rfl, rfl, term_agrees_on_table⟩

/-- Witness for C1 at n = 5. -/
theorem table_matches_canonical_A000081_witness :
    5 < 15 ∧ term 5 = OEIS_A000081.getD 5 0 :=
  ⟨by decide, table_matches_canonical_A000081.2.2.2.2 5 (by decide)⟩

/-- C5 (code evaluation at the failing input): the fallback expected-count
lookup at level −1 returns the last table entry 32973 through Python
negative indexing instead of failing with an out-of-domain error. -/
theorem get_expected_count_negative_returns_value :
    get_expected_count (-1) = .ok 32973 :=
  rfl

/-- C10: with the B-Series classifier unavailable, validation passes for
every configuration, with the single non-empty message noting the skip. -/
theorem validate_bseries_skips_when_unavailable (config : DTESNConfig) :
    validate_bseries_config none config = (true, [BSeriesMessage.notAvailable]) :=
  rfl

/-- C3: beyond the known exact range, the spec-modelled `term` is the
asymptotic value D·α^n·n^(−3/2) (D = 0.43992, α = 2.95576, n^(3/2) in
fixed point) rounded to the nearest integer — a total, deterministic
function of n alone. -/
theorem term_beyond_known_range_is_asymptotic (n : Nat)
    (h : KNOWN_A000081_VALUES.length ≤ n) :
    term n = roundNearest (43992 * 295576 ^ n * 1000000)
      (100000 ^ (n + 1) * Nat.sqrt (n ^ 3 * 10 ^ 12)) := by
  unfold term
  rw [if_neg (by omega)]
  rfl

/-- The known exact range of the spec-modelled enumerator is 0..30. -/
lemma known_values_length : KNOWN_A000081_VALUES.length = 31 := by rfl

/-- Witness for C3 at n = 31 (one past the known range). -/
theorem term_beyond_known_range_is_asymptotic_witness :
    KNOWN_A000081_VALUES.length ≤ 31 ∧
    term 31 = roundNearest (43992 * 295576 ^ 31 * 1000000)
      (100000 ^ (31 + 1) * Nat.sqrt (31 ^ 3 * 10 ^ 12)) :=
  ⟨le_of_eq known_values_length,
   term_beyond_known_range_is_asymptotic 31 (le_of_eq known_values_length)⟩

/-- C4: the expected membrane count at level 0 is exactly 1 (overriding
the raw a(0) = 0), and at every level 1 ≤ L ≤ 14 of the exact table it is
the table value a(L). -/
theorem get_expected_count_level_values :
    get_expected_count 0 = .ok 1 ∧
    ∀ L : Nat, 1 ≤ L → L ≤ 14 →
      get_expected_count (L : Int) = .ok (OEIS_A000081.getD L 0) := by
  refine ⟨rfl, fun L h1 h2 => ?_⟩
  interval_cases L <;> rfl

/-- Witness for C4 at level 7. -/
theorem get_expected_count_level_values_witness :
    get_expected_count 0 = .ok 1 ∧ 1 ≤ 7 ∧ 7 ≤ 14 ∧
    get_expected_count (7 : Int) = .ok (OEIS_A000081.getD 7 0) :=
  ⟨get_expected_count_level_values.1, by decide, by decide,
   get_expected_count_level_values.2 7 (by decide) (by decide)⟩

/-- The spec-modelled known exact values, listed explicitly. -/
lemma known_values_eq : KNOWN_A000081_VALUES =
    [0, 1, 1, 2, 4, 9, 20, 48, 115, 286, 719, 1842, 4766, 12486, 32973,
     87811, 235381, 634847, 1721159, 4688676, 12826228, 35221832, 97055181,
     268282855, 743724984, 2067174645, 5759636510, 16083734329, 45007066269,
     126186554308, 354426847597] := by decide

/-- Inside the known range, `term` is the table lookup. -/
lemma term_eq_known_of_lt (n : Nat) (h : n < KNOWN_A000081_VALUES.length) :
    term n = KNOWN_A000081_VALUES.getD n 0 := by
  unfold term
  rw [if_pos h]

/-- Correctness of the keep-the-last-passing-index linear scan: over
`0..k-1` it lands on an index whose table value is within budget, stays
below k (or at 0), and dominates every in-budget index. -/
lemma foldl_scan_spec (tbl : Nat → Nat) (b : Nat) (h0 : tbl 0 ≤ b) (k : Nat) :
    tbl ((List.range k).foldl (fun acc n => if tbl n ≤ b then n else acc) 0) ≤ b ∧
    ((List.range k).foldl (fun acc n => if tbl n ≤ b then n else acc) 0 < k ∨
      (List.range k).foldl (fun acc n => if tbl n ≤ b then n else acc) 0 = 0) ∧
    ∀ m, m < k → tbl m ≤ b →
      m ≤ (List.range k).foldl (fun acc n => if tbl n ≤ b then n else acc) 0 := by
  induction k with
  | zero => exact ⟨by simpa using h0, Or.inr (by simp), by omega⟩
  | succ k ih =>
    rw [List.range_succ, List.foldl_append]
    simp only [List.foldl_cons, List.foldl_nil]
    by_cases hk : tbl k ≤ b
    · rw [if_pos hk]
      exact ⟨hk, Or.inl (by omega), fun m hm _ => by omega⟩
    · rw [if_neg hk]
      refine ⟨ih.1, ?_, fun m hm hmb => ?_⟩
      · rcases ih.2.1 with h | h
        · exact Or.inl (by omega)
        · exact Or.inr h
      · rcases Nat.lt_succ_iff_lt_or_eq.mp hm with h | h
        · exact ih.2.2 m h hmb
        · exact absurd hmb (h ▸ hk)

/-- Fixed-point square root of the cube is at most `n^2 * 10^6`. -/
lemma sqrt_cube_le (n : Nat) : Nat.sqrt (n ^ 3 * 10 ^ 12) ≤ n ^ 2 * 10 ^ 6 := by
  have h3 : n ^ 3 * 10 ^ 12 ≤ (n ^ 2 * 10 ^ 6) * (n ^ 2 * 10 ^ 6) := by
    have hp : n ^ 3 ≤ n ^ 4 := by
      cases n with
      | zero => simp
      | succ k => exact Nat.pow_le_pow_right (by omega) (by omega)
    nlinarith [hp]
  calc Nat.sqrt (n ^ 3 * 10 ^ 12) ≤ Nat.sqrt ((n ^ 2 * 10 ^ 6) * (n ^ 2 * 10 ^ 6)) :=
        Nat.sqrt_le_sqrt h3
    _ = n ^ 2 * 10 ^ 6 := Nat.sqrt_eq _

/-- The fixed-point cube root grows with n. -/
lemma sqrt_cube_mono (n : Nat) :
    Nat.sqrt (n ^ 3 * 10 ^ 12) ≤ Nat.sqrt ((n + 1) ^ 3 * 10 ^ 12) :=
  Nat.sqrt_le_sqrt (Nat.mul_le_mul_right _ (Nat.pow_le_pow_left (by omega) 3))

/-- The fixed-point cube root is positive for positive n. -/
lemma sqrt_cube_pos (n : Nat) (h : 1 ≤ n) : 0 < Nat.sqrt (n ^ 3 * 10 ^ 12) := by
  have h1 : 1 * 1 ≤ n ^ 3 * 10 ^ 12 := by
    have hcube : 1 ≤ n ^ 3 := Nat.one_le_pow 3 n (by omega)
    nlinarith [hcube]
  exact Nat.le_sqrt.mpr h1

/-- Growth bound used for the square-root doubling estimate. -/
lemma cube_growth (n : Nat) (h : 3 ≤ n) :
    (n + 1) ^ 3 * 10 ^ 12 + 4 * (n ^ 2 * 10 ^ 6) + 1 ≤ 4 * (n ^ 3 * 10 ^ 12) := by
  have f1 : 3 * n ^ 2 ≤ n ^ 3 := by nlinarith
  have f2 : 3 * n ≤ n ^ 2 := by nlinarith
  nlinarith [f1, f2]

/-- One index step at most doubles the fixed-point cube root (n ≥ 3). -/
lemma sqrt_cube_double (n : Nat) (h : 3 ≤ n) :
    Nat.sqrt ((n + 1) ^ 3 * 10 ^ 12) ≤ 2 * Nat.sqrt (n ^ 3 * 10 ^ 12) := by
  by_contra hc
  push_neg at hc
  have h1 : Nat.sqrt ((n + 1) ^ 3 * 10 ^ 12) * Nat.sqrt ((n + 1) ^ 3 * 10 ^ 12) ≤
      (n + 1) ^ 3 * 10 ^ 12 := Nat.sqrt_le _
  have h2 : n ^ 3 * 10 ^ 12 <
      (Nat.sqrt (n ^ 3 * 10 ^ 12) + 1) * (Nat.sqrt (n ^ 3 * 10 ^ 12) + 1) :=
    Nat.lt_succ_sqrt _
  have h3 : Nat.sqrt (n ^ 3 * 10 ^ 12) ≤ n ^ 2 * 10 ^ 6 := sqrt_cube_le n
  have h4 : 2 * Nat.sqrt (n ^ 3 * 10 ^ 12) + 1 ≤ Nat.sqrt ((n + 1) ^ 3 * 10 ^ 12) := hc
  have h5 : (2 * Nat.sqrt (n ^ 3 * 10 ^ 12) + 1) * (2 * Nat.sqrt (n ^ 3 * 10 ^ 12) + 1) ≤
      Nat.sqrt ((n + 1) ^ 3 * 10 ^ 12) * Nat.sqrt ((n + 1) ^ 3 * 10 ^ 12) :=
    Nat.mul_le_mul h4 h4
  have h6 := cube_growth n h
  nlinarith [h1, h2, h3, h5, h6]

/-- Exponential growth beats `10^6 * n^2` from n = 31 on. -/
lemma two_pow_ge_sq (n : Nat) (h : 31 ≤ n) : 10 ^ 6 * n ^ 2 ≤ 2 ^ n := by
  induction n, h using Nat.le_induction with
  | base => decide
  | succ n hn ih =>
    have step : 10 ^ 6 * (n + 1) ^ 2 ≤ 2 * (10 ^ 6 * n ^ 2) := by nlinarith
    calc 10 ^ 6 * (n + 1) ^ 2 ≤ 2 * (10 ^ 6 * n ^ 2) := step
      _ ≤ 2 * 2 ^ n := Nat.mul_le_mul_left 2 ih
      _ = 2 ^ (n + 1) := by rw [pow_succ]; ring

/-- Exponential growth beats `10^6 * n^3` from n = 36 on. -/
lemma two_pow_ge_cube (n : Nat) (h : 36 ≤ n) : 10 ^ 6 * n ^ 3 ≤ 2 ^ n := by
  induction n, h using Nat.le_induction with
  | base => decide
  | succ n hn ih =>
    have a1 : 4 * n ^ 2 ≤ n ^ 3 := by nlinarith
    have a2 : 4 * n ≤ n ^ 2 := by nlinarith
    have step : 10 ^ 6 * (n + 1) ^ 3 ≤ 2 * (10 ^ 6 * n ^ 3) := by nlinarith [a1, a2]
    calc 10 ^ 6 * (n + 1) ^ 3 ≤ 2 * (10 ^ 6 * n ^ 3) := step
      _ ≤ 2 * 2 ^ n := Nat.mul_le_mul_left 2 ih
      _ = 2 ^ (n + 1) := by rw [pow_succ]; ring

/-- The asymptotic base dominates `200000 = 2 * 10^5`. -/
lemma pow_200000_le (n : Nat) : (200000 : Nat) ^ n ≤ 295576 ^ n :=
  Nat.pow_le_pow_left (by norm_num) n

/-- For n ≥ 31 the asymptotic numerator dominates `10^5` times the
denominator (the asymptotic value stays above 10^5 there). -/
lemma den_le_num (n : Nat) (h : 31 ≤ n) :
    100000 * (100000 ^ (n + 1) * Nat.sqrt (n ^ 3 * 10 ^ 12)) ≤
      43992 * 295576 ^ n * 1000000 := by
  have hs := sqrt_cube_le n
  have h2 := two_pow_ge_sq n h
  have hp := pow_200000_le n
  calc 100000 * (100000 ^ (n + 1) * Nat.sqrt (n ^ 3 * 10 ^ 12))
      ≤ 100000 * (100000 ^ (n + 1) * (n ^ 2 * 10 ^ 6)) := by gcongr
    _ = (10 ^ 16 * n ^ 2) * 100000 ^ n := by rw [pow_succ]; ring
    _ ≤ (43992 * 10 ^ 12 * n ^ 2) * 100000 ^ n := by
        gcongr
        norm_num
    _ = 43992 * (10 ^ 6 * n ^ 2) * 100000 ^ n * 10 ^ 6 := by ring
    _ ≤ 43992 * 2 ^ n * 100000 ^ n * 10 ^ 6 := by gcongr
    _ = 43992 * 200000 ^ n * 10 ^ 6 := by
        rw [show (200000 : Nat) = 2 * 100000 from rfl, mul_pow]
        ring
    _ ≤ 43992 * 295576 ^ n * 10 ^ 6 := by gcongr
    _ = 43992 * 295576 ^ n * 1000000 := by norm_num

/-- The rounded asymptotic value is monotone from n = 31 on. -/
lemma asymptoticTerm_mono (n : Nat) (h : 31 ≤ n) :
    asymptoticTerm n ≤ asymptoticTerm (n + 1) := by
  have hdouble : 100000 ^ (n + 1 + 1) * Nat.sqrt ((n + 1) ^ 3 * 10 ^ 12) ≤
      200000 * (100000 ^ (n + 1) * Nat.sqrt (n ^ 3 * 10 ^ 12)) := by
    rw [pow_succ]
    calc 100000 ^ (n + 1) * 100000 * Nat.sqrt ((n + 1) ^ 3 * 10 ^ 12)
        ≤ 100000 ^ (n + 1) * 100000 * (2 * Nat.sqrt (n ^ 3 * 10 ^ 12)) := by
          gcongr
          exact sqrt_cube_double n (by omega)
      _ = 200000 * (100000 ^ (n + 1) * Nat.sqrt (n ^ 3 * 10 ^ 12)) := by ring
  have hgrow : 100000 * (100000 ^ (n + 1) * Nat.sqrt (n ^ 3 * 10 ^ 12)) ≤
      100000 ^ (n + 1 + 1) * Nat.sqrt ((n + 1) ^ 3 * 10 ^ 12) := by
    rw [pow_succ]
    calc 100000 * (100000 ^ (n + 1) * Nat.sqrt (n ^ 3 * 10 ^ 12))
        = 100000 ^ (n + 1) * 100000 * Nat.sqrt (n ^ 3 * 10 ^ 12) := by ring
      _ ≤ 100000 ^ (n + 1) * 100000 * Nat.sqrt ((n + 1) ^ 3 * 10 ^ 12) := by
          gcongr
          exact sqrt_cube_mono n
  have hden := den_le_num n h
  have hpos : 0 < 2 * (100000 ^ (n + 1 + 1) * Nat.sqrt ((n + 1) ^ 3 * 10 ^ 12)) := by
    have h1 := sqrt_cube_pos (n + 1) (by omega)
    have h2 : 0 < (100000 : Nat) ^ (n + 1 + 1) := pow_pos (by norm_num) _
    exact Nat.mul_pos (by norm_num) (Nat.mul_pos h2 h1)
  unfold asymptoticTerm roundNearest
  rw [Nat.le_div_iff_mul_le hpos]
  have hN : 43992 * 295576 ^ (n + 1) * 1000000 =
      295576 * (43992 * 295576 ^ n * 1000000) := by
    rw [pow_succ]
    ring
  rw [hN]
  set N := 43992 * 295576 ^ n * 1000000 with hNdef
  set D := 100000 ^ (n + 1) * Nat.sqrt (n ^ 3 * 10 ^ 12) with hDdef
  set E := 100000 ^ (n + 1 + 1) * Nat.sqrt ((n + 1) ^ 3 * 10 ^ 12) with hEdef
  calc (2 * N + D) / (2 * D) * (2 * E)
      ≤ (2 * N + D) / (2 * D) * (2 * (200000 * D)) := by gcongr
    _ = 200000 * ((2 * N + D) / (2 * D) * (2 * D)) := by ring
    _ ≤ 200000 * (2 * N + D) := by
        gcongr
        exact Nat.div_mul_le_self _ _
    _ = 400000 * N + 100000 * D + 100000 * D := by ring
    _ ≤ 400000 * N + N + E :=
        Nat.add_le_add (Nat.add_le_add le_rfl hden) hgrow
    _ ≤ 2 * (295576 * N) + E := by
        have hNN : 400000 * N + N ≤ 2 * (295576 * N) := by nlinarith
        omega

/-- The rounded asymptotic value, written out (a definitional equation,
stated at a variable to keep the square root symbolic). -/
lemma asymptoticTerm_def (n : Nat) : asymptoticTerm n =
    (2 * (43992 * 295576 ^ n * 1000000) + 100000 ^ (n + 1) * Nat.sqrt (n ^ 3 * 10 ^ 12)) /
      (2 * (100000 ^ (n + 1) * Nat.sqrt (n ^ 3 * 10 ^ 12))) := rfl

/-- A concrete lower bound on the first asymptotic value: it exceeds the
last tabulated term. -/
lemma term_31_lower : (354426847597 : Nat) ≤ asymptoticTerm 31 := by
  have hs : Nat.sqrt (31 ^ 3 * 10 ^ 12) < 173000001 := by
    rw [Nat.sqrt_lt]
    norm_num
  have hspos : 0 < Nat.sqrt (31 ^ 3 * 10 ^ 12) := sqrt_cube_pos 31 (by omega)
  rw [asymptoticTerm_def 31]
  calc (354426847597 : Nat)
      ≤ 43992 * 295576 ^ 31 * 1000000 / (100000 ^ (31 + 1) * 173000000) := by decide
    _ ≤ 43992 * 295576 ^ 31 * 1000000 /
        (100000 ^ (31 + 1) * Nat.sqrt (31 ^ 3 * 10 ^ 12)) := by
        apply Nat.div_le_div_left
        · exact Nat.mul_le_mul_left _ (by omega)
        · exact Nat.mul_pos (pow_pos (by norm_num) (31 + 1)) hspos
    _ = 2 * (43992 * 295576 ^ 31 * 1000000) /
        (2 * (100000 ^ (31 + 1) * Nat.sqrt (31 ^ 3 * 10 ^ 12))) :=
        (Nat.mul_div_mul_left _ _ (by norm_num)).symm
    _ ≤ (2 * (43992 * 295576 ^ 31 * 1000000) +
          100000 ^ (31 + 1) * Nat.sqrt (31 ^ 3 * 10 ^ 12)) /
        (2 * (100000 ^ (31 + 1) * Nat.sqrt (31 ^ 3 * 10 ^ 12))) :=
        Nat.div_le_div_right (Nat.le_add_right _ _)

/-- Monotonicity across the table-to-asymptotic boundary. -/
lemma term_30_le_31 : term 30 ≤ term 31 := by
  have h30 : term 30 = 354426847597 := by
    rw [term_eq_known_of_lt 30 (by rw [known_values_length]; omega), known_values_eq]
    rfl
  have h31 : term 31 = asymptoticTerm 31 := by
    unfold term
    rw [if_neg (by rw [known_values_length]; omega)]
  rw [h30, h31]
  exact term_31_lower

/-- Beyond the known range the modelled term grows at least linearly,
which bounds the budget-scan range. -/
lemma term_ge_linear (m : Nat) (h : 36 ≤ m) : 439920 * m ≤ term m := by
  have hterm : term m = asymptoticTerm m := by
    unfold term
    rw [if_neg (by rw [known_values_length]; omega)]
  rw [hterm]
  have hpos : 0 < 2 * (100000 ^ (m + 1) * Nat.sqrt (m ^ 3 * 10 ^ 12)) := by
    have h1 := sqrt_cube_pos m (by omega)
    have h2 : 0 < (100000 : Nat) ^ (m + 1) := pow_pos (by norm_num) _
    exact Nat.mul_pos (by norm_num) (Nat.mul_pos h2 h1)
  unfold asymptoticTerm roundNearest
  rw [Nat.le_div_iff_mul_le hpos]
  have hND : 439920 * m * (100000 ^ (m + 1) * Nat.sqrt (m ^ 3 * 10 ^ 12)) ≤
      43992 * 295576 ^ m * 1000000 := by
    have hs := sqrt_cube_le m
    have h3 := two_pow_ge_cube m h
    have hp := pow_200000_le m
    calc 439920 * m * (100000 ^ (m + 1) * Nat.sqrt (m ^ 3 * 10 ^ 12))
        ≤ 439920 * m * (100000 ^ (m + 1) * (m ^ 2 * 10 ^ 6)) := by gcongr
      _ = 43992 * (10 ^ 6 * m ^ 3) * 100000 ^ m * 10 ^ 6 := by rw [pow_succ]; ring
      _ ≤ 43992 * 2 ^ m * 100000 ^ m * 10 ^ 6 := by gcongr
      _ = 43992 * 200000 ^ m * 10 ^ 6 := by
          rw [show (200000 : Nat) = 2 * 100000 from rfl, mul_pow]
          ring
      _ ≤ 43992 * 295576 ^ m * 10 ^ 6 := by gcongr
      _ = 43992 * 295576 ^ m * 1000000 := by norm_num
  calc 439920 * m * (2 * (100000 ^ (m + 1) * Nat.sqrt (m ^ 3 * 10 ^ 12)))
      = 2 * (439920 * m * (100000 ^ (m + 1) * Nat.sqrt (m ^ 3 * 10 ^ 12))) := by ring
    _ ≤ 2 * (43992 * 295576 ^ m * 1000000) := by gcongr
    _ ≤ 2 * (43992 * 295576 ^ m * 1000000) +
        100000 ^ (m + 1) * Nat.sqrt (m ^ 3 * 10 ^ 12) := Nat.le_add_right _ _

/-- The modelled term is monotone non-decreasing for every n ≥ 2: inside
the table, across the table boundary, and through the asymptotic range. -/
lemma term_mono (n : Nat) (h2 : 2 ≤ n) : term n ≤ term (n + 1) := by
  rcases Nat.lt_or_ge n 30 with h30 | h30
  · rw [term_eq_known_of_lt n (by rw [known_values_length]; omega),
        term_eq_known_of_lt (n + 1) (by rw [known_values_length]; omega),
        known_values_eq]
    interval_cases n <;> decide
  · rcases Nat.eq_or_lt_of_le h30 with heq | h31
    · rw [← heq]
      exact term_30_le_31
    · have ha : term n = asymptoticTerm n := by
        unfold term
        rw [if_neg (by rw [known_values_length]; omega)]
      have hb : term (n + 1) = asymptoticTerm (n + 1) := by
        unfold term
        rw [if_neg (by rw [known_values_length]; omega)]
      rw [ha, hb]
      exact asymptoticTerm_mono n (by omega)

/-- A successful catalog build records exactly the generated shapes and
certifies every generated per-order count against `term`. -/
lemma buildOrders_ok (g : Nat → List TreeShape) :
    ∀ (ks : List Nat) (cat : List (Nat × List TreeShape)),
      buildOrders g ks = .ok cat →
      cat = ks.map (fun k => (k, g k)) ∧ ∀ k ∈ ks, (g k).length = term k := by
  intro ks
  induction ks with
  | nil =>
    intro cat h
    rw [buildOrders] at h
    injection h with h
    subst h
    exact ⟨rfl, by simp⟩
  | cons k ks ih =>
    intro cat h
    rw [buildOrders] at h
    by_cases hlen : (g k).length = term k
    · rw [if_pos hlen] at h
      cases hb : buildOrders g ks with
      | ok rest =>
        rw [hb] at h
        injection h with h
        subst h
        obtain ⟨hmap, hall⟩ := ih rest hb
        refine ⟨by rw [List.map_cons, hmap], fun k2 hk2 => ?_⟩
        rcases List.mem_cons.mp hk2 with h2 | h2
        · subst h2; exact hlen
        · exact hall k2 h2
      | error e =>
        rw [hb] at h
        exact Except.noConfusion h
    · rw [if_neg hlen] at h
      exact Except.noConfusion h

/-- Shape lookup on an order-keyed association catalog. -/
lemma shapes_of_order_map (g : Nat → List TreeShape) :
    ∀ (ks : List Nat) (k : Nat), k ∈ ks →
      shapes_of_order (ks.map (fun k => (k, g k))) k = g k := by
  intro ks
  induction ks with
  | nil => intro k hk; cases hk
  | cons a as ih =>
    intro k hk
    by_cases hak : a = k
    · subst hak
      simp [shapes_of_order, List.find?]
    · rcases List.mem_cons.mp hk with h2 | h2
      · exact absurd h2.symm hak
      · have hstep : shapes_of_order ((a, g a) :: as.map (fun k => (k, g k))) k =
            shapes_of_order (as.map (fun k => (k, g k))) k := by
          simp [shapes_of_order, List.find?, hak]
        rw [List.map_cons, hstep]
        exact ih k h2

/-- No missing-level violation exactly when every expected level occurs. -/
lemma missing_nil_iff (h : List MembraneLevel) (m : Nat) :
    missingLevelsOf h m = [] ↔ ∀ d, d ≤ m → d ∈ h.map (fun lv => lv.level) := by
  simp [missingLevelsOf, List.filter_eq_nil_iff, List.mem_range, Nat.lt_succ_iff,
    levelsOf, List.mem_dedup]

/-- No extra-level violation exactly when no entry exceeds the max depth. -/
lemma extra_nil_iff (h : List MembraneLevel) (m : Nat) :
    extraLevelsOf h m = [] ↔ ∀ lv ∈ h, lv.level ≤ m := by
  simp [extraLevelsOf, List.filter_eq_nil_iff, levelsOf, List.mem_dedup, List.mem_map]

/-- No count-mismatch violation exactly when each in-table entry matches. -/
lemma counts_nil_iff (h : List MembraneLevel) :
    countErrorsOf h = [] ↔
      ∀ lv ∈ h, lv.level < OEIS_A000081.length → lv.count = expectedCount lv.level := by
  simp only [countErrorsOf, List.filterMap_eq_nil_iff]
  constructor
  · intro hh lv hlv hlt
    have hnone := hh lv hlv
    by_contra hne
    rw [if_pos ⟨hlt, hne⟩] at hnone
    cases hnone
  · intro hh lv hlv
    rw [if_neg]
    rintro ⟨hlt, hne⟩
    exact hne (hh lv hlv hlt)

/-- The error list is empty exactly when all three component checks pass. -/
lemma errors_nil_iff (h : List MembraneLevel) (m : Nat) :
    errorsOf h m = [] ↔
      missingLevelsOf h m = [] ∧ extraLevelsOf h m = [] ∧ countErrorsOf h = [] := by
  unfold errorsOf
  rw [List.append_assoc, List.append_eq_nil, List.append_eq_nil]
  constructor
  · rintro ⟨h1, h2, h3⟩
    refine ⟨?_, ?_, h3⟩
    · by_contra hne
      rw [if_neg (by simpa [List.isEmpty_iff] using hne)] at h1
      cases h1
    · by_contra hne
      rw [if_neg (by simpa [List.isEmpty_iff] using hne)] at h2
      cases h2
  · rintro ⟨h1, h2, h3⟩
    rw [if_pos (List.isEmpty_iff.mpr h1), if_pos (List.isEmpty_iff.mpr h2)]
    exact ⟨rfl, rfl, h3⟩

/-- C2 (counterexample): a hierarchy that splits depth 2 into two entries
of count 1 each passes validation with no violations, although the total
membrane count at depth 2 is 2 while the sequence expects term(2) = 1 —
the claimed "counted across all entries" reading of the validator is
false. -/
theorem validate_original_ignores_split_levels :
    validate_original splitLevelHierarchy 2 = (true, []) ∧
    countAtDepth splitLevelHierarchy 2 = 2 ∧
    expectedCount 2 = 1 ∧ term 2 = 1 := by
  refine ⟨by decide, by decide, by decide, ?_⟩
  rfl

/-- C2 (amended): the validator reports no violations iff max_depth is
within the table, every depth 0..max_depth occurs among the entries, and
every individual entry's count equals the expected count for its level
(counts are compared per entry, not summed per depth). -/
theorem validate_original_no_violations_iff (h : List MembraneLevel) (m : Nat) :
    (validate_original h m).2 = [] ↔
      (m < OEIS_A000081.length ∧
       (∀ d, d ≤ m → d ∈ h.map (fun lv => lv.level)) ∧
       (∀ lv ∈ h, lv.level ≤ m ∧ lv.count = expectedCount lv.level)) := by
  unfold validate_original
  by_cases hm : OEIS_A000081.length ≤ m
  · rw [if_pos hm]
    constructor
    · intro hh
      exact absurd hh (by simp)
    · rintro ⟨h1, -, -⟩
      omega
  · rw [if_neg hm]
    push_neg at hm
    show errorsOf h m = [] ↔ _
    rw [errors_nil_iff, missing_nil_iff, extra_nil_iff, counts_nil_iff]
    constructor
    · rintro ⟨h1, h2, h3⟩
      refine ⟨hm, h1, fun lv hlv => ⟨h2 lv hlv, h3 lv hlv (by have := h2 lv hlv; omega)⟩⟩
    · rintro ⟨h1, h2, h3⟩
      exact ⟨h2, fun lv hlv => (h3 lv hlv).1, fun lv hlv _ => (h3 lv hlv).2⟩

/-- Witness for the amended C2: a per-entry-correct three-level hierarchy
validates with no violations. -/
theorem validate_original_no_violations_iff_witness :
    (validate_original [⟨0, 1, 100, "root"⟩, ⟨1, 1, 50, "trunk"⟩, ⟨2, 1, 20, "leaf"⟩] 2).2 = [] :=
  (validate_original_no_violations_iff
    [⟨0, 1, 100, "root"⟩, ⟨1, 1, 50, "trunk"⟩, ⟨2, 1, 20, "leaf"⟩] 2).mpr
    ⟨by decide, by decide, by decide⟩

/-- C6: on a successful catalog build every order 1 ≤ k ≤ max_order holds
exactly term(k) shapes, and any per-order generation count differing from
term(k) makes the whole build fail with a `ClassificationError`. -/
theorem buildCatalog_counts_match_term (g : Nat → List TreeShape) (max_order : Nat) :
    (∀ cat, buildCatalog g max_order = .ok cat →
      ∀ k, 1 ≤ k → k ≤ max_order → (shapes_of_order cat k).length = term k) ∧
    (∀ k, 1 ≤ k → k ≤ max_order → (g k).length ≠ term k →
      ∃ k0, buildCatalog g max_order = .error (.ClassificationError k0)) := by
  constructor
  · intro cat h k h1 h2
    obtain ⟨hmap, hall⟩ := buildOrders_ok g _ cat h
    have hk : k ∈ List.range' 1 max_order := by
      rw [List.mem_range'_1]
      omega
    rw [hmap, shapes_of_order_map g _ k hk]
    exact hall k hk
  · intro k h1 h2 hne
    cases hb : buildCatalog g max_order with
    | ok cat =>
      obtain ⟨hmap, hall⟩ := buildOrders_ok g _ cat hb
      exact absurd (hall k (by rw [List.mem_range'_1]; omega)) hne
    | error e =>
      cases e with
      | ClassificationError k0 => exact ⟨k0, rfl⟩

/-- Witness for C6: the demo generator builds a catalog up to order 3
whose order-2 shape count is term(2). -/
theorem buildCatalog_counts_match_term_witness :
    1 ≤ 2 ∧ 2 ≤ 3 ∧ (shapes_of_order demoCatalog 2).length = term 2 :=
  ⟨by decide, by decide,
    (buildCatalog_counts_match_term demoGenerator 3).1 demoCatalog (by rfl) 2
      (by decide) (by decide)⟩

/-- C7: the enumeration is monotone non-decreasing for every n ≥ 2 (in
particular on the exact table entries 2..13), so `max_nodes_for_budget`,
a linear scan, returns an n with term(n) ≤ budget that dominates every n
whose term is within budget — the largest such n. -/
theorem term_monotone_and_budget_scan_correct :
    (∀ n, 2 ≤ n → n ≤ 13 →
      OEIS_A000081.getD n 0 ≤ OEIS_A000081.getD (n + 1) 0) ∧
    (∀ n, 2 ≤ n → term n ≤ term (n + 1)) ∧
    (∀ b : Nat, term (max_nodes_for_budget b) ≤ b ∧
      ∀ m, term m ≤ b → m ≤ max_nodes_for_budget b) := by
  refine ⟨fun n h2 h13 => ?_, term_mono, fun b => ?_⟩
  · interval_cases n <;> decide
  · have h0 : term 0 ≤ b := by
      rw [term_agrees_on_table 0 (by omega)]
      exact Nat.zero_le b
    have spec := foldl_scan_spec term b h0 (b + 37)
    have hfold : max_nodes_for_budget b =
        (List.range (b + 37)).foldl (fun acc n => if term n ≤ b then n else acc) 0 := rfl
    refine ⟨hfold ▸ spec.1, fun m hmb => ?_⟩
    by_cases hm : m < b + 37
    · exact hfold ▸ spec.2.2 m hm hmb
    · push_neg at hm
      have hgl := term_ge_linear m (by omega)
      omega

/-- Witness for C7 at n = 5 and budget 100 (where the scan stops at 7,
since term(7) = 48 ≤ 100 < 115 = term(8)). -/
theorem term_monotone_and_budget_scan_correct_witness :
    2 ≤ 5 ∧ 5 ≤ 13 ∧ OEIS_A000081.getD 5 0 ≤ OEIS_A000081.getD 6 0 ∧
    (2 ≤ 5 ∧ term 5 ≤ term 6) ∧
    term (max_nodes_for_budget 100) ≤ 100 ∧
    (term 7 ≤ 100 ∧ 7 ≤ max_nodes_for_budget 100) := by
  have h7 : term 7 ≤ 100 := by
    rw [term_agrees_on_table 7 (by omega)]
    decide
  exact ⟨by decide, by decide,
    term_monotone_and_budget_scan_correct.1 5 (by decide) (by decide),
    ⟨by decide, term_monotone_and_budget_scan_correct.2.1 5 (by decide)⟩,
    (term_monotone_and_budget_scan_correct.2.2 100).1, h7,
    (term_monotone_and_budget_scan_correct.2.2 100).2 7 h7⟩

/-- C8: two-run determinism of the spec-modelled synchronous strategy —
structurally identical systems (same membranes, objects and rules) evolve
to the same rules_applied count and the same object multisets in every
membrane. -/
theorem evolve_system_synchronous_deterministic
    (s1 s2 : PSystem) (m1 m2 : EvolutionMetrics) (r1 r2 : PSystem)
    (hmem : s1.membranes = s2.membranes)
    (h1 : evolve_system s1 = .ok (m1, r1))
    (h2 : evolve_system s2 = .ok (m2, r2)) :
    m1.rules_applied = m2.rules_applied ∧
    r1.membranes.map (fun mb => mb.objects) = r2.membranes.map (fun mb => mb.objects) := by
  have he : evolve_system s1 = evolve_system s2 := by
    unfold evolve_system
    rw [hmem]
  rw [h1, h2] at he
  injection he with he
  injection he with hm hr
  rw [hm, hr]
  exact ⟨rfl, rfl⟩

/-- Witness for C8: running the demo system twice yields the same metrics
and object multisets. -/
theorem evolve_system_synchronous_deterministic_witness :
    ({ rules_applied := 2 } : EvolutionMetrics).rules_applied =
      ({ rules_applied := 2 } : EvolutionMetrics).rules_applied ∧
    demoSystemEvolved.membranes.map (fun mb => mb.objects) =
      demoSystemEvolved.membranes.map (fun mb => mb.objects) :=
  evolve_system_synchronous_deterministic demoSystem demoSystem
    { rules_applied := 2 } { rules_applied := 2 }
    demoSystemEvolved demoSystemEvolved rfl (by rfl) (by rfl)

/-- C9: the compiler entry point is a total boolean function of the step
outcomes — it returns true exactly when parsing, hierarchy validation,
B-Series validation, and the output write all succeed, and false whenever
any of them fails (a raised exception being an error outcome). -/
theorem compile_file_true_iff_all_steps_succeed
    (p : Except String DTESNConfig) (cls : Option BSeriesClassifier)
    (w : Except String Unit) :
    compile_file p cls w = true ↔
      ∃ config, p = .ok config ∧
        (validate_original config.membrane_hierarchy config.max_depth).1 = true ∧
        (validate_bseries_config cls config).1 = true ∧
        w = .ok () := by
  cases p with
  | error e => simp [compile_file]
  | ok config =>
    cases hv : (validate_original config.membrane_hierarchy config.max_depth).1 <;>
      cases hb : (validate_bseries_config cls config).1 <;>
        cases w <;> simp [compile_file, hv, hb]

/-- Witness for C9: a well-formed two-level configuration with no
classifier compiles successfully. -/
theorem compile_file_true_iff_all_steps_succeed_witness :
    compile_file
      (.ok { name := "demo", version := "1.0", max_depth := 1,
             membrane_hierarchy := [⟨0, 1, 100, "root"⟩, ⟨1, 1, 50, "trunk"⟩],
             timing_constraints := {} })
      none (.ok ()) = true :=
  (compile_file_true_iff_all_steps_succeed
      (.ok { name := "demo", version := "1.0", max_depth := 1,
             membrane_hierarchy := [⟨0, 1, 100, "root"⟩, ⟨1, 1, 50, "trunk"⟩],
             timing_constraints := {} })
      none (.ok ())).mpr
    ⟨_, rfl, by decide, rfl, rfl⟩

end EchoKern
